import Mathlib

/-!
Shallow embedding of the completion orchestration core of
src/helix-term/src/handlers/completion.rs.

The embedding translates the handler state machine (CompletionHandler and
its AsyncHook handle_event implementation), the dispatch function
request_completion, the result-merging future body, the cancellable spawn
body, and the delivery function show_completion into executable Lean
definitions. External collaborators (editor state, the completion popup
widget, language servers) are modelled as plain data carrying exactly the
fields the translated code reads.
-/

namespace Helix

/-- View identifiers (helix_view::ViewId), abstracted to Nat. -/
abbrev ViewId := Nat

/-- Document identifiers (helix_view::DocumentId), abstracted to Nat. -/
abbrev DocumentId := Nat

/-- Language server identifiers (helix_lsp::LanguageServerId), abstracted to Nat. -/
abbrev LanguageServerId := Nat

/-- enum TriggerKind from completion.rs. -/
inductive TriggerKind
  | Auto
  | TriggerChar
  | Manual
deriving DecidableEq, Repr

/-- struct Trigger from completion.rs: { pos, view, doc, kind }. -/
structure Trigger where
  pos : Nat
  view : ViewId
  doc : DocumentId
  kind : TriggerKind
deriving DecidableEq, Repr

/-- The sender half of a cancellation token pair (helix_event::CancelTx).
Only the observable used by completion.rs is modelled: whether the sender
is already closed (the receiving request has finished). Dropping the
sender, modelled by the handler field becoming none, cancels a live
request. -/
structure CancelTx where
  is_closed : Bool
deriving DecidableEq, Repr

/-- struct CompletionHandler from completion.rs: the pending trigger and
a handle for the currently active completion request. -/
structure CompletionHandler where
  trigger : Option Trigger
  request : Option CancelTx
deriving DecidableEq, Repr

/-- enum CompletionEvent (helix_view::handlers::lsp::CompletionEvent),
the input alphabet of the handler. Field order follows the source:
cursor, doc, view. -/
inductive CompletionEvent
  | AutoTrigger (cursor : Nat) (doc : DocumentId) (view : ViewId)
  | TriggerChar (cursor : Nat) (doc : DocumentId) (view : ViewId)
  | ManualTrigger (cursor : Nat) (doc : DocumentId) (view : ViewId)
  | Cancel
  | DeleteText (cursor : Nat)
deriving DecidableEq, Repr

/-- Result of one handle_event call: the mutated handler state, the
returned Option of a wake instant (instants are Nat time stamps), and the
trigger handed to dispatch_blocking when finish_debounce ran (only the
ManualTrigger arm does this inside handle_event). -/
structure HandleResult where
  state : CompletionHandler
  deadline : Option Nat
  dispatched : Option Trigger
deriving DecidableEq, Repr

/-- The trailing expression of handle_event (completion.rs lines 140-154):
if a trigger is pending, take the stored request (the taken sender is
dropped, which cancels a live request), and compute the new wake deadline:
now + completion_timeout for an Auto trigger when no live request was just
cancelled, otherwise now + 5 milliseconds. -/
def CompletionHandler.debounce_deadline (self : CompletionHandler)
    (now completion_timeout : Nat) : HandleResult :=
  match self.trigger with
  | none => { state := self, deadline := none, dispatched := none }
  | some trigger =>
      let cancel :=
        match self.request with
        | none => false
        | some req => !req.is_closed
      let timeout :=
        if trigger.kind == TriggerKind.Auto && !cancel then completion_timeout
        else 5
      { state := { self with request := none },
        deadline := some (now + timeout),
        dispatched := none }

/-- handle_event from the AsyncHook implementation of CompletionHandler
(completion.rs lines 79-155). now and completion_timeout stand for
Instant::now() and config.editor.completion_timeout; old_timeout is the
ignored _old_timeout argument. The ManualTrigger arm also runs
finish_debounce (lines 157-164): it takes the trigger, stores a fresh
(not yet closed) cancellation sender, and dispatches the request. -/
def CompletionHandler.handle_event (self : CompletionHandler)
    (event : CompletionEvent) (now completion_timeout : Nat)
    (_old_timeout : Option Nat) : HandleResult :=
  match event with
  | .AutoTrigger trigger_pos doc view =>
      let self :=
        if (match self.trigger with
            | none => true
            | some trigger => trigger.doc != doc || trigger.view != view) then
          { self with
            trigger := some { pos := trigger_pos, view, doc, kind := TriggerKind.Auto } }
        else self
      self.debounce_deadline now completion_timeout
  | .TriggerChar cursor doc view =>
      let self : CompletionHandler :=
        { request := none,
          trigger := some { pos := cursor, view, doc, kind := TriggerKind.TriggerChar } }
      self.debounce_deadline now completion_timeout
  | .ManualTrigger cursor doc view =>
      let trigger : Trigger := { pos := cursor, view, doc, kind := TriggerKind.Manual }
      { state := { trigger := none, request := some { is_closed := false } },
        deadline := none,
        dispatched := some trigger }
  | .Cancel =>
      let self : CompletionHandler := { trigger := none, request := none }
      self.debounce_deadline now completion_timeout
  | .DeleteText cursor =>
      let self :=
        if (match self.trigger with
            | some trigger => decide (cursor < trigger.pos)
            | none => false) then
          ({ trigger := none, request := none } : CompletionHandler)
        else self
      self.debounce_deadline now completion_timeout

/-- Folding a list of AutoTrigger events (cursor, doc, view) through
handle_event, keeping only the handler state. -/
def run_auto_triggers (self : CompletionHandler)
    (events : List (Nat × DocumentId × ViewId)) (now completion_timeout : Nat) :
    CompletionHandler :=
  match events with
  | [] => self
  | (cursor, doc, view) :: rest =>
      run_auto_triggers
        (self.handle_event (.AutoTrigger cursor doc view) now completion_timeout none).state
        rest now completion_timeout

/-- enum Mode (helix_view::document::Mode). -/
inductive Mode
  | Normal
  | Select
  | Insert
deriving DecidableEq, Repr

/-- ui::CompletionItem: an opaque lsp item, its originating provider, and
the resolved marker. -/
structure CompletionItem where
  item : Nat
  provider : LanguageServerId
  resolved : Bool
deriving DecidableEq, Repr

/-- ui::CompletionDetails: the per-provider incomplete flag. -/
structure CompletionDetails where
  is_incomplete : Bool
deriving DecidableEq, Repr

/-- Default for CompletionDetails (is_incomplete = false), matching
CompletionDetails::default() used for array-shaped responses. -/
instance : Inhabited CompletionDetails := ⟨⟨false⟩⟩

/-- The open completion popup as read by completion.rs: its set of
providers whose last result was incomplete (incomplete_ids), the stored
trigger offset, and the items of providers that returned complete results
(complete_items). -/
structure CompletionPopup where
  incomplete_ids : List LanguageServerId
  trigger_offset : Nat
  complete_items : List CompletionItem
deriving DecidableEq, Repr

/-- A language server as read by request_completion: identity, offset
encoding (abstract tag), and its declared completion trigger characters
(none when the server declares no completion provider or no trigger
characters). -/
structure LanguageServer where
  id : LanguageServerId
  offset_encoding : Nat
  trigger_characters : Option (List String)
deriving DecidableEq, Repr

/-- The slice of editor state read by request_completion and
show_completion: mode, the active view and document identifiers, the
primary cursor offset of the active document, its text, and the ordered
stream of language servers supporting the Completion feature
(doc.language_servers_with_feature, duplicates possible). -/
structure EditorState where
  mode : Mode
  view_id : ViewId
  doc_id : DocumentId
  cursor : Nat
  text : String
  language_servers : List LanguageServer
deriving DecidableEq, Repr

/-- lsp::CompletionTriggerKind values used by completion.rs. -/
inductive CompletionTriggerKind
  | INVOKED
  | TRIGGER_CHARACTER
deriving DecidableEq, Repr

/-- lsp::CompletionContext. -/
structure CompletionContext where
  trigger_kind : CompletionTriggerKind
  trigger_character : Option String
deriving DecidableEq, Repr

/-- One outgoing per-provider completion request: the provider identity,
the position actually sent (the result of pos_to_lsp_pos on the live
cursor under the provider offset encoding, kept abstract through the
encode argument of request_completion), and the completion context. -/
structure ProviderRequest where
  provider : LanguageServerId
  pos : Nat
  context : CompletionContext
deriving DecidableEq, Repr

/-- Outcome of a request_completion call: either an early return before
any provider was queried, or a dispatch carrying the issued per-provider
requests and the trigger (with its pos overwritten by the live cursor)
that is later passed to show_completion. -/
inductive RequestOutcome
  | abandoned
  | dispatched (requests : List ProviderRequest) (trigger : Trigger)
deriving DecidableEq, Repr

/-- The dedup pass of request_completion:
filter(|ls| seen_language_servers.insert(ls.id())) keeps each server whose
id was not seen before, in stream order. -/
def dedup_by_id : List LanguageServer → List LanguageServerId → List LanguageServer
  | [], _ => []
  | ls :: rest, seen =>
      if seen.contains ls.id then dedup_by_id rest seen
      else ls :: dedup_by_id rest (ls.id :: seen)

/-- The ls_filter closure of request_completion: with no open popup every
server passes; with an open popup only the ids in incomplete_ids pass. -/
def ls_filter (completion : Option CompletionPopup) (ls : LanguageServerId) : Bool :=
  match completion with
  | none => true
  | some completion => completion.incomplete_ids.contains ls

/-- The per-provider CompletionContext computation of request_completion:
Manual triggers send INVOKED; otherwise the first declared trigger
character that is a suffix of the text before the cursor yields
TRIGGER_CHARACTER, else INVOKED. -/
def completion_context (kind : TriggerKind) (ls : LanguageServer)
    (trigger_text : String) : CompletionContext :=
  if kind == TriggerKind.Manual then
    { trigger_kind := CompletionTriggerKind.INVOKED, trigger_character := none }
  else
    let trigger_char :=
      match ls.trigger_characters with
      | none => none
      | some chars => chars.find? (fun trigger => trigger_text.endsWith trigger)
    match trigger_char with
    | some c =>
        { trigger_kind := CompletionTriggerKind.TRIGGER_CHARACTER,
          trigger_character := some c }
    | none =>
        { trigger_kind := CompletionTriggerKind.INVOKED, trigger_character := none }

/-- request_completion (completion.rs lines 167-310) up to the issuing of
the provider futures. completion is ui.completion of the found EditorView;
encode abstracts pos_to_lsp_pos text applied to a char offset and an
offset encoding. The two early returns, the trigger.pos overwrite, the
dedup pass, the ls_filter restriction, and the per-provider request
construction are translated directly. -/
def request_completion (trigger : Trigger) (editor : EditorState)
    (completion : Option CompletionPopup) (encode : Nat → Nat → Nat) :
    RequestOutcome :=
  if (match completion with
      | some completion => completion.incomplete_ids.isEmpty
      | none => false)
      || editor.mode != Mode.Insert then
    RequestOutcome.abandoned
  else
    let cursor := editor.cursor
    if trigger.view != editor.view_id || trigger.doc != editor.doc_id
        || decide (cursor < trigger.pos) then
      RequestOutcome.abandoned
    else
      let trigger := { trigger with pos := cursor }
      let trigger_text := editor.text.take cursor
      let servers :=
        (dedup_by_id editor.language_servers []).filter
          (fun ls => ls_filter completion ls.id)
      let requests := servers.map (fun ls =>
        { provider := ls.id,
          pos := encode cursor ls.offset_encoding,
          context := completion_context trigger.kind ls trigger_text })
      RequestOutcome.dispatched requests trigger

/-- The settled result of one provider task, in completion order: the
anyhow::Result of an Option of (decoded items, (provider id, details)),
exactly the type awaited by the merging loop of completion.rs
(lines 280-291). Error payloads are the formatted messages. -/
abbrev ProviderResponse :=
  Except String (Option (List CompletionItem × (LanguageServerId × CompletionDetails)))

/-- Log levels of the log crate as used here. -/
inductive LogLevel
  | debug
deriving DecidableEq, Repr

/-- HashMap::insert on the association list modelling
HashMap of LanguageServerId to CompletionDetails: the new binding replaces
any previous binding for the same key. -/
def details_insert (m : List (LanguageServerId × CompletionDetails))
    (k : LanguageServerId) (v : CompletionDetails) :
    List (LanguageServerId × CompletionDetails) :=
  (k, v) :: m.filter (fun p => p.1 != k)

/-- HashMap::get on the association-list map model. -/
def details_lookup (m : List (LanguageServerId × CompletionDetails))
    (k : LanguageServerId) : Option CompletionDetails :=
  (m.find? (fun p => p.1 == k)).map Prod.snd

/-- The merger state built by the while-let loop of completion.rs: the
flat item accumulator, the per-provider details map, and the debug log
emitted so far. -/
structure MergeState where
  items : List CompletionItem
  cmp_is_incomplete : List (LanguageServerId × CompletionDetails)
  log : List (LogLevel × String)
deriving DecidableEq, Repr

/-- One iteration of the merging loop (completion.rs lines 281-290):
a successful Some response appends its items and records its details under
the provider id; an Err is logged at debug level and changes nothing else;
an Ok(None) does nothing. -/
def merge_step (acc : MergeState) (response : ProviderResponse) : MergeState :=
  match response with
  | .ok (some (lsp_items, lsp_type_pair)) =>
      { acc with
        items := acc.items ++ lsp_items,
        cmp_is_incomplete :=
          details_insert acc.cmp_is_incomplete lsp_type_pair.1 lsp_type_pair.2 }
  | .error err =>
      { acc with log := acc.log ++ [(LogLevel.debug, err)] }
  | .ok none => acc

/-- The whole merging future: fold the responses, in completion order,
from the empty accumulator. -/
def merge_responses (responses : List ProviderResponse) : MergeState :=
  responses.foldl merge_step { items := [], cmp_is_incomplete := [], log := [] }

/-- cancelable_future(future, cancel): none when the cancellation token
closed before the future completed, otherwise the future result. -/
def cancelable_future {α : Type} (cancelled : Bool) (result : α) : Option α :=
  if cancelled then none else some result

/-- The arguments of the dispatch(show_completion ...) call made by the
spawned task. -/
structure Delivery where
  items : List CompletionItem
  lsp_cmp_details : List (LanguageServerId × CompletionDetails)
  trigger : Trigger
deriving DecidableEq, Repr

/-- The body of the tokio::spawn block of request_completion (lines
299-309): race the merging future against the cancellation token,
defaulting to the empty result on cancellation; return without dispatching
when the item list is empty, otherwise dispatch show_completion. -/
def completion_task (cancelled : Bool)
    (merged : List CompletionItem × List (LanguageServerId × CompletionDetails))
    (trigger : Trigger) : Option Delivery :=
  let r := (cancelable_future cancelled merged).getD ([], [])
  if r.1.isEmpty then none
  else some { items := r.1, lsp_cmp_details := r.2, trigger }

/-- The arguments of the ui.set_completion call show_completion ends in. -/
structure SetCompletionArgs where
  items : List CompletionItem
  lsp_cmp_details : List (LanguageServerId × CompletionDetails)
  trigger_offset : Nat
deriving DecidableEq, Repr

/-- show_completion (completion.rs lines 312-372): the staleness gate
returns without touching the UI when the mode left Insert or the active
view or document no longer matches the trigger; otherwise, with a popup
already open, the old complete items are chained before the new ones under
the popup trigger offset, else the new items are shown at the trigger
position. -/
def show_completion (editor : EditorState)
    (ui_completion : Option CompletionPopup) (items : List CompletionItem)
    (lsp_cmp_details : List (LanguageServerId × CompletionDetails))
    (trigger : Trigger) : Option SetCompletionArgs :=
  if editor.mode != Mode.Insert || editor.view_id != trigger.view
      || editor.doc_id != trigger.doc then
    none
  else
    some (match ui_completion with
      | some completion =>
          { items := completion.complete_items ++ items,
            lsp_cmp_details,
            trigger_offset := completion.trigger_offset }
      | none =>
          { items, lsp_cmp_details, trigger_offset := trigger.pos })

/-- Projection of the items of a successful nonempty provider response. -/
def ok_items (response : ProviderResponse) : Option (List CompletionItem) :=
  match response with
  | .ok (some (lsp_items, _)) => some lsp_items
  | .ok none => none
  | .error _ => none

/-- A sample provider list with a duplicated identity (id 7 occurs twice),
used to evaluate the dispatch path on concrete input. -/
def so_servers : List LanguageServer := [⟨7, 0, none⟩, ⟨7, 1, none⟩, ⟨8, 2, none⟩]

/-- A sample editor state in Insert mode with cursor 4. -/
def so_editor : EditorState := ⟨Mode.Insert, 1, 2, 4, "ab.c", so_servers⟩

/-- A sample manual trigger recorded at position 3 on the sample view and
document. -/
def so_trigger : Trigger := ⟨3, 1, 2, TriggerKind.Manual⟩

/-- A sample injective offset encoding function. -/
def so_encode : Nat → Nat → Nat := fun pos enc => pos * 10 + enc

/- ------------------------------------------------------------------ -/
/- Helper lemmas                                                       -/
/- ------------------------------------------------------------------ -/

theorem mem_of_mem_dedup_by_id {ls : LanguageServer} :
    ∀ (l : List LanguageServer) (seen : List LanguageServerId),
      ls ∈ dedup_by_id l seen → ls ∈ l := by
  intro l
  induction l with
  | nil => intro seen h; simp [dedup_by_id] at h
  | cons hd tl ih =>
      intro seen h
      simp only [dedup_by_id] at h
      split at h
      · exact List.mem_cons_of_mem _ (ih _ h)
      · rcases List.mem_cons.mp h with h | h
        · exact h ▸ List.mem_cons_self _ _
        · exact List.mem_cons_of_mem _ (ih _ h)

theorem id_mem_dedup_by_id (p : LanguageServerId) :
    ∀ (l : List LanguageServer) (seen : List LanguageServerId),
      p ∈ (dedup_by_id l seen).map LanguageServer.id ↔
        p ∈ l.map LanguageServer.id ∧ p ∉ seen := by
  intro l
  induction l with
  | nil => intro seen; simp [dedup_by_id]
  | cons hd tl ih =>
      intro seen
      simp only [dedup_by_id]
      split
      · rename_i hseen
        have hmem : hd.id ∈ seen := List.elem_iff.mp hseen
        rw [ih]
        simp only [List.map_cons, List.mem_cons]
        constructor
        · rintro ⟨hm, hns⟩; exact ⟨Or.inr hm, hns⟩
        · rintro ⟨hm | hm, hns⟩
          · exact absurd (hm ▸ hmem) hns
          · exact ⟨hm, hns⟩
      · rename_i hseen
        have hmem : hd.id ∉ seen := fun hc => hseen (List.elem_iff.mpr hc)
        simp only [List.map_cons, List.mem_cons]
        rw [ih]
        constructor
        · rintro (hm | ⟨hm, hns⟩)
          · exact ⟨Or.inl hm, hm ▸ hmem⟩
          · refine ⟨Or.inr hm, fun hc => hns (List.mem_cons_of_mem _ hc)⟩
        · rintro ⟨hm | hm, hns⟩
          · exact Or.inl hm
          · by_cases hp : p = hd.id
            · exact Or.inl hp
            · refine Or.inr ⟨hm, fun hc => ?_⟩
              rcases List.mem_cons.mp hc with hc | hc
              · exact hp hc
              · exact hns hc

theorem dedup_by_id_nodup :
    ∀ (l : List LanguageServer) (seen : List LanguageServerId),
      ((dedup_by_id l seen).map LanguageServer.id).Nodup := by
  intro l
  induction l with
  | nil => intro seen; simp [dedup_by_id]
  | cons hd tl ih =>
      intro seen
      simp only [dedup_by_id]
      split
      · exact ih _
      · simp only [List.map_cons, List.nodup_cons]
        refine ⟨fun hc => ?_, ih _⟩
        have := (id_mem_dedup_by_id hd.id tl (hd.id :: seen)).mp hc
        exact this.2 (List.mem_cons_self _ _)

theorem run_auto_triggers_same_view_doc (d : DocumentId) (v : ViewId)
    (now ct : Nat) :
    ∀ (cs : List Nat) (s : CompletionHandler) (t : Trigger),
      s.trigger = some t → t.doc = d → t.view = v →
      (run_auto_triggers s (cs.map (fun p => (p, d, v))) now ct).trigger = some t := by
  intro cs
  induction cs with
  | nil => intro s t h _ _; simpa [run_auto_triggers] using h
  | cons c cs ih =>
      intro s t h hd hv
      simp only [List.map_cons, run_auto_triggers]
      refine ih _ t ?_ hd hv
      simp [CompletionHandler.handle_event, h, hd, hv,
        CompletionHandler.debounce_deadline]

theorem merge_responses_append (rs : List ProviderResponse)
    (r : ProviderResponse) :
    merge_responses (rs ++ [r]) = merge_step (merge_responses rs) r := by
  simp [merge_responses, List.foldl_append]

theorem merge_items_spec (rs : List ProviderResponse) :
    ∀ acc : MergeState,
      (rs.foldl merge_step acc).items = acc.items ++ (rs.filterMap ok_items).flatten := by
  induction rs with
  | nil => intro acc; simp
  | cons r rs ih =>
      intro acc
      match r with
      | .ok (some (lsp_items, lsp_type_pair)) =>
          simp [merge_step, ok_items, ih, List.append_assoc]
      | .ok none => simp [merge_step, ok_items, ih]
      | .error err => simp [merge_step, ok_items, ih]

/- ------------------------------------------------------------------ -/
/- Claim theorems                                                      -/
/- ------------------------------------------------------------------ -/

/-- Claim C1: for a request whose cancellation token closed before its
provider tasks settled, the spawned task discards the partial accumulation
(the race yields the empty default result) and never dispatches the
show_completion delivery call, so no items reach the staleness gate. -/
theorem cancelled_request_never_delivers
    (merged : List CompletionItem × List (LanguageServerId × CompletionDetails))
    (trigger : Trigger) :
    completion_task true merged trigger = none ∧
    (cancelable_future true merged).getD ([], []) = ([], []) :=
  ⟨rfl, rfl⟩

/-- Counterexample to claim C2: an AutoTrigger at cursor 5 on the same
view and document as the pending trigger leaves the pending trigger at its
old position 0 instead of replacing it. -/
theorem auto_trigger_same_view_doc_keeps_old_position :
    (CompletionHandler.handle_event ⟨some ⟨0, 3, 2, TriggerKind.Auto⟩, none⟩
        (CompletionEvent.AutoTrigger 5 2 3) 100 250 none).state.trigger
      = some ⟨0, 3, 2, TriggerKind.Auto⟩ ∧ (0 : Nat) ≠ 5 := by decide

/-- Amended claim C2: on a same-view/document AutoTrigger the pending
trigger is kept, not replaced, so for any nonempty sequence of AutoTrigger
events on one view and document the pending trigger (the one dispatched
once the timeout elapses) is the first event's trigger, not the most
recent one. -/
theorem auto_trigger_retains_first_trigger (c : Nat) (cs : List Nat)
    (d : DocumentId) (v : ViewId) (now ct : Nat) :
    (run_auto_triggers ⟨none, none⟩ ((c :: cs).map (fun p => (p, d, v))) now ct).trigger
      = some ⟨c, v, d, TriggerKind.Auto⟩ := by
  simp only [List.map_cons, run_auto_triggers]
  refine run_auto_triggers_same_view_doc d v now ct cs _ _ ?_ rfl rfl
  simp [CompletionHandler.handle_event, CompletionHandler.debounce_deadline]

/-- Claim C3: at delivery time, a mode other than Insert, a differing
active view identifier, or a differing active document identifier
suppresses delivery: show_completion returns without modifying the
completion UI. -/
theorem show_completion_suppressed_when_stale (editor : EditorState)
    (ui_completion : Option CompletionPopup) (items : List CompletionItem)
    (lsp_cmp_details : List (LanguageServerId × CompletionDetails))
    (trigger : Trigger)
    (h : editor.mode ≠ Mode.Insert ∨ editor.view_id ≠ trigger.view ∨
         editor.doc_id ≠ trigger.doc) :
    show_completion editor ui_completion items lsp_cmp_details trigger = none := by
  unfold show_completion
  rcases h with h | h | h <;> simp [h]

/-- Witness for claim C3 at a concrete stale editor state. -/
theorem show_completion_suppressed_when_stale_witness :
    (Mode.Normal ≠ Mode.Insert ∨ (1 : Nat) ≠ 1 ∨ (2 : Nat) ≠ 2) ∧
    show_completion ⟨Mode.Normal, 1, 2, 0, "", []⟩ none [] []
        ⟨0, 1, 2, TriggerKind.Auto⟩ = none :=
  ⟨Or.inl (by decide),
    show_completion_suppressed_when_stale ⟨Mode.Normal, 1, 2, 0, "", []⟩ none [] []
      ⟨0, 1, 2, TriggerKind.Auto⟩ (Or.inl (by decide))⟩

/-- Counterexample to claim C4: with a pending trigger at position 3 and a
live outstanding request, a DeleteText at cursor 3 (cursor greater than or
equal to the trigger position) is not a no-op: the stored request is taken
and dropped (becoming none) and a fresh deadline is returned instead of
the old one. -/
theorem delete_text_after_trigger_still_drops_request :
    ((CompletionHandler.handle_event ⟨some ⟨3, 1, 2, TriggerKind.Auto⟩, some ⟨false⟩⟩
        (CompletionEvent.DeleteText 3) 100 250 (some 999)).state.request = none ∧
      some (⟨false⟩ : CancelTx) ≠ (none : Option CancelTx)) ∧
    ((CompletionHandler.handle_event ⟨some ⟨3, 1, 2, TriggerKind.Auto⟩, some ⟨false⟩⟩
        (CompletionEvent.DeleteText 3) 100 250 (some 999)).deadline = some 105 ∧
      (some 105 : Option Nat) ≠ some 999) := by decide

/-- Amended claim C4: a DeleteText with cursor strictly below the pending
trigger position clears the trigger and the request and returns no
deadline; with cursor at or after the trigger position the trigger is left
unchanged, but the handler tail still takes and drops the stored request
(cancelling a live one) and returns a fresh deadline of now plus the
completion timeout (Auto trigger, nothing live cancelled) or now plus 5
milliseconds. -/
theorem delete_text_effect (s : CompletionHandler) (t : Trigger)
    (cursor now ct : Nat) (old : Option Nat) (h : s.trigger = some t) :
    (cursor < t.pos →
      CompletionHandler.handle_event s (.DeleteText cursor) now ct old =
        { state := ⟨none, none⟩, deadline := none, dispatched := none }) ∧
    (t.pos ≤ cursor →
      CompletionHandler.handle_event s (.DeleteText cursor) now ct old =
        { state := ⟨some t, none⟩,
          deadline := some (now +
            (if t.kind == TriggerKind.Auto &&
                !(match s.request with
                  | none => false
                  | some req => !req.is_closed)
              then ct else 5)),
          dispatched := none }) := by
  obtain ⟨tr, req⟩ := s
  cases h
  constructor
  · intro hlt
    simp [CompletionHandler.handle_event, CompletionHandler.debounce_deadline, hlt]
  · intro hge
    have hlt : ¬ cursor < t.pos := not_lt.mpr hge
    simp [CompletionHandler.handle_event, CompletionHandler.debounce_deadline, hlt]

/-- Witness for amended claim C4: DeleteText at cursor 5 with trigger
position 3 and no stored request keeps the trigger and returns deadline
now + completion_timeout. -/
theorem delete_text_effect_witness :
    CompletionHandler.handle_event ⟨some ⟨3, 1, 2, TriggerKind.Auto⟩, none⟩
        (CompletionEvent.DeleteText 5) 100 250 none =
      { state := ⟨some ⟨3, 1, 2, TriggerKind.Auto⟩, none⟩,
        deadline := some 350,
        dispatched := none } :=
  (delete_text_effect ⟨some ⟨3, 1, 2, TriggerKind.Auto⟩, none⟩
    ⟨3, 1, 2, TriggerKind.Auto⟩ 5 100 250 none rfl).2 (by decide)

/-- Counterexample to claim C5: an AutoTrigger drops a live stored request
(the request field becomes none), and with a pending same-view/document
TriggerChar trigger the returned deadline is now + 5 even though no
request was just cancelled. -/
theorem auto_trigger_cancels_and_short_deadline :
    ((CompletionHandler.handle_event ⟨none, some ⟨false⟩⟩
        (CompletionEvent.AutoTrigger 5 2 3) 100 250 none).state.request = none ∧
      some (⟨false⟩ : CancelTx) ≠ (none : Option CancelTx)) ∧
    ((CompletionHandler.handle_event ⟨some ⟨0, 3, 2, TriggerKind.TriggerChar⟩, none⟩
        (CompletionEvent.AutoTrigger 5 2 3) 100 250 none).deadline = some 105 ∧
      (some 105 : Option Nat) ≠ some (100 + 250)) := by decide

/-- Amended claim C5: processing an AutoTrigger always ends with a pending
trigger and the stored request taken (the field becomes none, dropping the
sender and cancelling a live request); the returned deadline is now plus
the completion timeout when the resulting pending trigger kind is Auto and
no live request was just cancelled, otherwise now plus 5 milliseconds; the
pending trigger is the old one when its view and document match the event,
else a fresh Auto trigger at the event cursor. -/
theorem auto_trigger_effect (s : CompletionHandler) (cursor : Nat)
    (d : DocumentId) (v : ViewId) (now ct : Nat) (old : Option Nat) :
    ∃ t : Trigger,
      CompletionHandler.handle_event s (.AutoTrigger cursor d v) now ct old =
        { state := { trigger := some t, request := none },
          deadline := some (now +
            (if t.kind == TriggerKind.Auto &&
                !(match s.request with
                  | none => false
                  | some req => !req.is_closed)
              then ct else 5)),
          dispatched := none } ∧
      t = (match s.trigger with
            | some t0 =>
                if t0.doc == d && t0.view == v then t0
                else ⟨cursor, v, d, TriggerKind.Auto⟩
            | none => ⟨cursor, v, d, TriggerKind.Auto⟩) := by
  obtain ⟨tr, req⟩ := s
  cases tr with
  | none =>
      refine ⟨⟨cursor, v, d, TriggerKind.Auto⟩, ?_, rfl⟩
      simp [CompletionHandler.handle_event, CompletionHandler.debounce_deadline]
  | some t0 =>
      by_cases hsame : t0.doc = d ∧ t0.view = v
      · refine ⟨t0, ?_, by simp [hsame.1, hsame.2]⟩
        simp [CompletionHandler.handle_event, CompletionHandler.debounce_deadline,
          hsame.1, hsame.2]
      · refine ⟨⟨cursor, v, d, TriggerKind.Auto⟩, ?_, ?_⟩
        · have hcond : (t0.doc != d || t0.view != v) = true := by
            rcases not_and_or.mp hsame with h | h <;> simp [h]
          simp [CompletionHandler.handle_event, CompletionHandler.debounce_deadline,
            hcond]
        · have hcond : (t0.doc == d && t0.view == v) = false := by
            rcases not_and_or.mp hsame with h | h <;> simp [h]
          simp [hcond]

/-- Claim C6: when the trigger is dispatched, a non-Insert mode, a
view or document mismatch, or a live cursor strictly before the recorded
trigger position abandons the dispatch as a silent no-op before any
provider request is issued. -/
theorem request_completion_precondition_noop (trigger : Trigger)
    (editor : EditorState) (completion : Option CompletionPopup)
    (encode : Nat → Nat → Nat)
    (h : editor.mode ≠ Mode.Insert ∨ trigger.view ≠ editor.view_id ∨
         trigger.doc ≠ editor.doc_id ∨ editor.cursor < trigger.pos) :
    request_completion trigger editor completion encode =
      RequestOutcome.abandoned := by
  unfold request_completion
  split
  · rfl
  · rename_i hc1
    dsimp only
    split
    · rfl
    · rename_i hc2
      exfalso
      simp only [Bool.or_eq_true, not_or, Bool.not_eq_true, bne_eq_false_iff_eq,
        decide_eq_false_iff_not] at hc1 hc2
      obtain ⟨⟨hview, hdoc⟩, hcur⟩ := hc2
      rcases h with h | h | h | h
      · exact h hc1.2
      · exact h hview
      · exact h hdoc
      · exact hcur h

/-- Witness for claim C6: dispatch in Normal mode is abandoned. -/
theorem request_completion_precondition_noop_witness :
    (Mode.Normal ≠ Mode.Insert ∨ (1 : Nat) ≠ 1 ∨ (2 : Nat) ≠ 2 ∨ (0 : Nat) < 0) ∧
    request_completion ⟨0, 1, 2, TriggerKind.Auto⟩ ⟨Mode.Normal, 1, 2, 0, "", []⟩
        none so_encode = RequestOutcome.abandoned :=
  ⟨Or.inl (by decide),
    request_completion_precondition_noop ⟨0, 1, 2, TriggerKind.Auto⟩
      ⟨Mode.Normal, 1, 2, 0, "", []⟩ none so_encode (Or.inl (by decide))⟩

/-- Claim C7: a dispatch that passes the preconditions sends, for each
queried provider, the current live primary-cursor offset converted by that
provider's offset encoding (not the recorded trigger offset), and the
trigger position is overwritten with the live cursor offset before
delivery. -/
theorem request_uses_live_cursor (trigger : Trigger) (editor : EditorState)
    (completion : Option CompletionPopup) (encode : Nat → Nat → Nat)
    (reqs : List ProviderRequest) (trig : Trigger)
    (h : request_completion trigger editor completion encode =
          RequestOutcome.dispatched reqs trig) :
    trig.pos = editor.cursor ∧
    ∀ req ∈ reqs, ∃ ls ∈ editor.language_servers,
      req.provider = ls.id ∧ req.pos = encode editor.cursor ls.offset_encoding := by
  unfold request_completion at h
  split at h
  · simp at h
  · dsimp only at h
    split at h
    · simp at h
    · injection h with hreqs htrig
      subst hreqs
      subst htrig
      refine ⟨rfl, ?_⟩
      intro req hreq
      rcases List.mem_map.mp hreq with ⟨ls, hls, rfl⟩
      rcases List.mem_filter.mp hls with ⟨hded, _⟩
      exact ⟨ls, mem_of_mem_dedup_by_id _ _ hded, rfl, rfl⟩

/-- Witness for claim C7 at a concrete dispatch over two deduplicated
providers. -/
theorem request_uses_live_cursor_witness :
    (⟨4, 1, 2, TriggerKind.Manual⟩ : Trigger).pos = so_editor.cursor ∧
    ∀ req ∈ ([⟨7, 40, ⟨CompletionTriggerKind.INVOKED, none⟩⟩,
              ⟨8, 42, ⟨CompletionTriggerKind.INVOKED, none⟩⟩] : List ProviderRequest),
      ∃ ls ∈ so_editor.language_servers,
        req.provider = ls.id ∧ req.pos = so_encode so_editor.cursor ls.offset_encoding :=
  request_uses_live_cursor so_trigger so_editor none so_encode
    [⟨7, 40, ⟨CompletionTriggerKind.INVOKED, none⟩⟩,
     ⟨8, 42, ⟨CompletionTriggerKind.INVOKED, none⟩⟩]
    ⟨4, 1, 2, TriggerKind.Manual⟩ (by decide)

/-- Claim C8: the queried providers are the document's completion-capable
providers deduplicated by identity (each id queried at most once), and
with an open popup the set is exactly restricted to the providers whose
prior result was marked incomplete. -/
theorem provider_selection_dedup_and_incomplete (trigger : Trigger)
    (editor : EditorState) (completion : Option CompletionPopup)
    (encode : Nat → Nat → Nat) (reqs : List ProviderRequest) (trig : Trigger)
    (h : request_completion trigger editor completion encode =
          RequestOutcome.dispatched reqs trig) :
    (reqs.map ProviderRequest.provider).Nodup ∧
    ∀ p : LanguageServerId,
      p ∈ reqs.map ProviderRequest.provider ↔
        (p ∈ editor.language_servers.map LanguageServer.id ∧
          ∀ c, completion = some c → p ∈ c.incomplete_ids) := by
  unfold request_completion at h
  split at h
  · simp at h
  · dsimp only at h
    split at h
    · simp at h
    · injection h with hreqs htrig
      have hmap : reqs.map ProviderRequest.provider =
          ((dedup_by_id editor.language_servers []).filter
            (fun ls => ls_filter completion ls.id)).map LanguageServer.id := by
        rw [← hreqs]
        simp [List.map_map, Function.comp]
      constructor
      · rw [hmap]
        exact ((dedup_by_id_nodup editor.language_servers []).sublist
          ((List.filter_sublist _).map _))
      · intro p
        rw [hmap]
        constructor
        · intro hp
          rcases List.mem_map.mp hp with ⟨ls, hls, rfl⟩
          rcases List.mem_filter.mp hls with ⟨hded, hg⟩
          have hl : ls.id ∈ editor.language_servers.map LanguageServer.id :=
            ((id_mem_dedup_by_id ls.id editor.language_servers []).mp
              (List.mem_map_of_mem _ hded)).1
          refine ⟨hl, ?_⟩
          intro c hc
          subst hc
          exact List.elem_iff.mp hg
        · rintro ⟨hl, hc⟩
          have hd : p ∈ (dedup_by_id editor.language_servers []).map LanguageServer.id :=
            (id_mem_dedup_by_id p editor.language_servers []).mpr ⟨hl, by simp⟩
          rcases List.mem_map.mp hd with ⟨ls, hded, rfl⟩
          refine List.mem_map_of_mem _ (List.mem_filter.mpr ⟨hded, ?_⟩)
          cases completion with
          | none => rfl
          | some c => exact List.elem_iff.mpr (hc c rfl)

/-- Witness for claim C8: with an open popup whose incomplete set is
exactly provider 8, the dispatch queries provider 8 alone, once. -/
theorem provider_selection_dedup_and_incomplete_witness :
    (([⟨8, 42, ⟨CompletionTriggerKind.INVOKED, none⟩⟩] : List ProviderRequest).map
        ProviderRequest.provider).Nodup ∧
    ∀ p : LanguageServerId,
      p ∈ (([⟨8, 42, ⟨CompletionTriggerKind.INVOKED, none⟩⟩] : List ProviderRequest).map
            ProviderRequest.provider) ↔
        (p ∈ so_editor.language_servers.map LanguageServer.id ∧
          ∀ c, (some ⟨[8], 0, []⟩ : Option CompletionPopup) = some c →
            p ∈ c.incomplete_ids) :=
  provider_selection_dedup_and_incomplete so_trigger so_editor
    (some ⟨[8], 0, []⟩) so_encode
    [⟨8, 42, ⟨CompletionTriggerKind.INVOKED, none⟩⟩]
    ⟨4, 1, 2, TriggerKind.Manual⟩ (by decide)

/-- Claim C9: the merger, consuming outcomes in completion order, appends
each successful outcome's items in arrival order preserving
within-provider order, records the incomplete flag under the provider
identity, logs a failed outcome at debug level without touching items or
flags, and an absent response contributes nothing. -/
theorem merger_appends_and_records (rs : List ProviderResponse)
    (its : List CompletionItem) (p : LanguageServerId) (d : CompletionDetails)
    (msg : String) :
    (merge_responses rs).items = (rs.filterMap ok_items).flatten ∧
    merge_responses (rs ++ [.error msg]) =
      { merge_responses rs with
        log := (merge_responses rs).log ++ [(LogLevel.debug, msg)] } ∧
    merge_responses (rs ++ [.ok none]) = merge_responses rs ∧
    (merge_responses (rs ++ [.ok (some (its, (p, d)))])).items
      = (merge_responses rs).items ++ its ∧
    details_lookup
      (merge_responses (rs ++ [.ok (some (its, (p, d)))])).cmp_is_incomplete p
      = some d := by
  refine ⟨?_, ?_, ?_, ?_, ?_⟩
  · simpa using merge_items_spec rs { items := [], cmp_is_incomplete := [], log := [] }
  · rw [merge_responses_append]; rfl
  · rw [merge_responses_append]; rfl
  · rw [merge_responses_append]; rfl
  · rw [merge_responses_append]
    simp [merge_step, details_insert, details_lookup]

/-- Claim C10: with a popup open whose incomplete provider set is empty,
request_completion returns immediately without querying any provider, for
every trigger kind including Manual; a dispatch only happens with no open
popup or a nonempty incomplete set. -/
theorem complete_popup_blocks_requery (trigger : Trigger)
    (editor : EditorState) (c : CompletionPopup) (encode : Nat → Nat → Nat)
    (h : c.incomplete_ids = []) :
    request_completion trigger editor (some c) encode =
      RequestOutcome.abandoned ∧
    ∀ (completion : Option CompletionPopup) (reqs : List ProviderRequest)
      (trig : Trigger),
      request_completion trigger editor completion encode =
        RequestOutcome.dispatched reqs trig →
      completion = none ∨ ∃ c2, completion = some c2 ∧ c2.incomplete_ids ≠ [] := by
  constructor
  · unfold request_completion
    simp [h]
  · intro completion reqs trig hreq
    cases completion with
    | none => exact Or.inl rfl
    | some c2 =>
        refine Or.inr ⟨c2, rfl, ?_⟩
        intro hempty
        unfold request_completion at hreq
        simp [hempty] at hreq

/-- Witness for claim C10: a Manual trigger with an open popup whose
incomplete set is empty is abandoned. -/
theorem complete_popup_blocks_requery_witness :
    request_completion so_trigger so_editor (some ⟨[], 0, []⟩) so_encode =
      RequestOutcome.abandoned :=
  (complete_popup_blocks_requery so_trigger so_editor ⟨[], 0, []⟩ so_encode rfl).1

end Helix
